import Mathlib

/-!
Verification development for the record-release GitHub action.

The definitions below are shallow embeddings of the TypeScript sources:
  * src/src/index.ts   — the main step (mode resolution, finalize, explicit,
                         single-job paths, session/artifact download, release
                         creation, commit-message handling)
  * src/unnamed/part_003 — the post/cleanup step of the same revision
                         (session upload, artifact upload under generated
                         names, release creation, single-job ledger write)
  * src/src/crypto.ts  — hybrid RSA-OAEP + AES-256-GCM secret decryption
  * src/src/types.ts   — the SessionData record

External collaborators (the artifact-storage client, glob matching, JSON
text (de)serialization, the HTTP client, Node's crypto primitives) are
modelled by reifying their possible outcomes as explicit data, exactly at
the boundaries where the source calls them.
-/

set_option maxHeartbeats 1000000

/-! ## Inputs and mode resolution (src/src/index.ts, run, lines 204-533)

The action's inputs as read at the top of run().  core.getInput returns the
empty string for an absent input, so presence of a string input is
non-emptiness; dry-run / get-version are compared against the literal
string "true", yielding booleans. -/

structure Inputs where
  token : String
  environment : String
  version : String
  /-- raw bump input; line 210 applies the default: bump or patch -/
  bump : String
  dryRun : Bool
  getVersion : Bool
  artifacts : String
deriving Repr, DecidableEq

/-- The six operating modes of the action. -/
inductive Mode
  | upload
  | finalize
  | queryVersion
  | init
  | explicitVersion
  | singleJob
deriving Repr, DecidableEq

/-- Valid environments (index.ts line 314). -/
def validEnvs : List String := ["production", "staging", "development"]

/-- Valid bump kinds (index.ts line 350). -/
def validBumps : List String := ["major", "minor", "patch"]

/-- index.ts line 210:  const bump = core.getInput of bump, or patch. -/
def effBump (i : Inputs) : String :=
  if i.bump = "" then ("patch") else i.bump

/-- Mode resolution, translated branch for branch from run() in
src/src/index.ts (lines 241-480): the guards appear in source order and
each taken branch is one mode or one thrown validation error. -/
def resolveMode (i : Inputs) : Except String Mode :=
  if i.token = "" ∧ i.artifacts ≠ "" then
    Except.ok Mode.upload
  else if i.token = "" then
    Except.error ("token is required")
  else if i.environment = "" ∧ i.version = "" ∧ i.dryRun = false ∧ i.getVersion = false then
    Except.ok Mode.finalize
  else if i.environment = "" then
    Except.error ("environment is required")
  else if ¬ (i.environment ∈ validEnvs) then
    Except.error ("Invalid environment: " ++ i.environment ++ ". Must be one of: production, staging, development")
  else if i.getVersion then
    Except.ok Mode.queryVersion
  else if i.version = "" ∧ ¬ (effBump i ∈ validBumps) then
    Except.error ("Invalid bump: " ++ effBump i ++ ". Must be one of: major, minor, patch")
  else if i.dryRun then
    Except.ok Mode.init
  else if i.version ≠ "" then
    Except.ok Mode.explicitVersion
  else
    Except.ok Mode.singleJob

/-- The decision table exactly as the spec words it (spec section 4.1 /
claim C1), over presence booleans.  This is the refinement target the
code's resolver is compared against. -/
def specModeTable (tok env ver dry get art : Bool) : Except String Mode :=
  if tok = false ∧ art = true then
    Except.ok Mode.upload
  else if tok = false then
    Except.error ("token is required")
  else if env = false ∧ ver = false ∧ dry = false ∧ get = false then
    Except.ok Mode.finalize
  else if env = false then
    Except.error ("environment is required")
  else if get then
    Except.ok Mode.queryVersion
  else if dry then
    Except.ok Mode.init
  else if ver then
    Except.ok Mode.explicitVersion
  else
    Except.ok Mode.singleJob

/-! ## Session data (src/src/types.ts lines 38-51)

Fields marked optional in the TypeScript type are Option here; JSON
serialization omits fields holding undefined, which the encoder below
mirrors by omitting the key.  The source field releasePrefix is named
releasePref here (same meaning). -/

structure SessionData where
  environment : String
  version : String
  applicationName : String
  apiUrl : String
  releasePref : Option String
  skipGithubRelease : Bool
  body : Option String
  draft : Bool
  prerelease : Bool
  commitHash : Option String
  commitMessage : Option String
  deployedBy : Option String
deriving Repr, DecidableEq

/-- A primitive JSON value as used by the session blob: every SessionData
field is a string or a boolean. -/
inductive JVal
  | str (s : String)
  | bool (b : Bool)
deriving Repr, DecidableEq

/-- A parsed JSON object: association list of field name to value. -/
abbrev JObj := List (String × JVal)

/-- First value stored under key k, as JavaScript property access. -/
def jGet (k : String) : JObj → Option JVal
  | [] => none
  | p :: ps => if p.1 = k then some p.2 else jGet k ps

def jGetStr (k : String) (j : JObj) : Option String :=
  match jGet k j with
  | some (JVal.str s) => some s
  | _ => none

def jGetBool (k : String) (j : JObj) : Option Bool :=
  match jGet k j with
  | some (JVal.bool b) => some b
  | _ => none

/-- JSON.stringify of a SessionData (part_003 line 29): the object's own
fields in declaration order, undefined-valued fields omitted. -/
def encodeSession (s : SessionData) : JObj :=
  [("environment", JVal.str s.environment),
   ("version", JVal.str s.version),
   ("applicationName", JVal.str s.applicationName),
   ("apiUrl", JVal.str s.apiUrl)]
  ++ (match s.releasePref with
      | none => []
      | some p => [("releasePrefix", JVal.str p)])
  ++ [("skipGithubRelease", JVal.bool s.skipGithubRelease)]
  ++ (match s.body with
      | none => []
      | some b => [("body", JVal.str b)])
  ++ [("draft", JVal.bool s.draft),
      ("prerelease", JVal.bool s.prerelease)]
  ++ (match s.commitHash with
      | none => []
      | some h => [("commitHash", JVal.str h)])
  ++ (match s.commitMessage with
      | none => []
      | some m => [("commitMessage", JVal.str m)])
  ++ (match s.deployedBy with
      | none => []
      | some d => [("deployedBy", JVal.str d)])

/-- JSON.parse of the session file followed by the as-SessionData read
(index.ts line 53): read each field off the parsed object; a mandatory
field that is absent or of the wrong shape means the text was not a
serialized session. -/
def decodeSession (j : JObj) : Option SessionData :=
  match jGetStr ("environment") j, jGetStr ("version") j,
        jGetStr ("applicationName") j, jGetStr ("apiUrl") j,
        jGetBool ("skipGithubRelease") j, jGetBool ("draft") j,
        jGetBool ("prerelease") j with
  | some env, some ver, some app, some api, some sgr, some dr, some pr =>
      some { environment := env, version := ver, applicationName := app,
             apiUrl := api, releasePref := jGetStr ("releasePrefix") j,
             skipGithubRelease := sgr, body := jGetStr ("body") j,
             draft := dr, prerelease := pr,
             commitHash := jGetStr ("commitHash") j,
             commitMessage := jGetStr ("commitMessage") j,
             deployedBy := jGetStr ("deployedBy") j }
  | _, _, _, _, _, _, _ => none

/-! ## Blob storage and the session store

src/src/index.ts lines 15-16 and src/unnamed/part_003 lines 11-12. -/

def SESSION_ARTIFACT_NAME : String := "record-release-session"

/-- Fixed exact artifact name the finalize-side download looks up
(index.ts line 16). -/
def ARTIFACTS_ARTIFACT_NAME : String := "record-release-artifacts"

/-- Fixed artifact-bundle name stem used by the upload side
(part_003 line 12, source constant ARTIFACTS_ARTIFACT_PREFIX). -/
def artifactNameStem : String := "record-release-artifacts-"

/-- part_003 lines 15-17: stem plus a freshly drawn unique suffix; the
randomUUID draw is the collaborator supplying the suffix. -/
def generateArtifactName (uuid : String) : String :=
  artifactNameStem ++ uuid

/-- The run-scoped artifact storage: bundles in most-recently-uploaded
first order, as the list endpoint returns them. -/
structure StoredBundle where
  name : String
  files : List String
deriving Repr, DecidableEq

abbrev BlobStore := List StoredBundle

/-- part_003 lines 38-70: expand patterns (the expansion result is the
files argument here); if nothing matched, warn and return without
uploading; otherwise upload the files under a generated name. -/
def uploadArtifactsToStorage (uuid : String) (files : List String)
    (st : BlobStore) : BlobStore :=
  if files = [] then st
  else { name := generateArtifactName uuid, files := files } :: st

/-- index.ts lines 65-102, downloadStoredArtifacts: find the artifact
whose name equals ARTIFACTS_ARTIFACT_NAME exactly (Array.find, first
match only); absent means return the empty list; present means download
it and glob its files. -/
def downloadStoredArtifacts (st : BlobStore) : List String :=
  match st.find? (fun b => b.name == ARTIFACTS_ARTIFACT_NAME) with
  | none => []
  | some b => b.files

/-! ## Session download (src/src/index.ts lines 20-63)

The collaborator outcomes of the try block are reified: the fixed-name
bundle may be absent from the listing, the download may yield no path,
the session.json file may be missing from the bundle, or any step inside
the try (listArtifacts, rmSync, downloadArtifact, readFileSync,
JSON.parse) may throw and be caught at line 57.  Otherwise the parsed
object is available. -/

inductive SessionFetch
  | noBundle
  | downloadFailed
  | fileMissing
  | caughtError (msg : String)
  | content (fields : JObj)
deriving Repr, DecidableEq

/-- downloadSession: an Option result (never a raised error) plus the
log lines emitted on the way. -/
def downloadSession : SessionFetch → Option SessionData × List String
  | SessionFetch.noBundle => (none, ["No session artifact found"])
  | SessionFetch.downloadFailed => (none, ["Failed to download session artifact"])
  | SessionFetch.fileMissing => (none, ["Session file not found in artifact"])
  | SessionFetch.caughtError m => (none, ["Failed to download session: " ++ m])
  | SessionFetch.content j => (decodeSession j, [])

/-- part_003 lines 19-36, uploadSession: serialize and upload under the
fixed session name; the listing returns the newest bundle first. -/
def publishSession (s : SessionData) (st : List (String × JObj)) :
    List (String × JObj) :=
  (SESSION_ARTIFACT_NAME, encodeSession s) :: st

/-- Locating the fixed session name in the listing (index.ts lines 24-30). -/
def sessionFetchOf (st : List (String × JObj)) : SessionFetch :=
  match st.find? (fun b => b.1 == SESSION_ARTIFACT_NAME) with
  | none => SessionFetch.noBundle
  | some b => SessionFetch.content b.2

/-- Resume = locate, download, parse. -/
def resumeSession (st : List (String × JObj)) : Option SessionData :=
  (downloadSession (sessionFetchOf st)).1

/-! ## Git tag construction at its three call sites -/

/-- The single tag rule the spec states: prefix-or-application-name,
then -v, then the version. -/
def tagRule (prefOrApp version : String) : String :=
  prefOrApp ++ "-v" ++ version

/-- index.ts lines 436-437 (Explicit mode). -/
def gitTagOfExplicit (releasePref applicationName version : String) : String :=
  (if releasePref = "" then applicationName else releasePref) ++ "-v" ++ version

/-- part_003 lines 199-200 (SingleJob cleanup phase). -/
def gitTagOfSingleJobPost (releasePref applicationName version : String) : String :=
  (if releasePref = "" then applicationName else releasePref) ++ "-v" ++ version

/-- index.ts lines 267-268 (Finalize mode), reading the session fields;
an absent or empty releasePrefix is falsy in the source disjunction. -/
def gitTagOfFinalize (s : SessionData) : String :=
  (match s.releasePref with
   | none => s.applicationName
   | some p => if p = "" then s.applicationName else p) ++ "-v" ++ s.version

/-! ## Finalize mode (src/src/index.ts lines 255-306) -/

/-- The ledger write payload of the deploy endpoint. -/
structure LedgerReq where
  environment : String
  version : String
  commitHash : Option String
  commitMessage : Option String
  deployedBy : Option String
  gitTag : String
deriving Repr, DecidableEq

/-- index.ts lines 273-280: the payload recorded by Finalize mode. -/
def finalizeLedgerReq (s : SessionData) : LedgerReq :=
  { environment := s.environment, version := s.version,
    commitHash := s.commitHash, commitMessage := s.commitMessage,
    deployedBy := s.deployedBy, gitTag := gitTagOfFinalize s }

/-- Finalize mode up to and including the ledger write: an absent session
throws before any ledger call; a present session records exactly one
ledger write carrying the session fields and the constructed tag.  First
component: the mode's result; second: the ledger writes attempted. -/
def finalizeRun (f : SessionFetch) : Except String String × List LedgerReq :=
  match (downloadSession f).1 with
  | none =>
      (Except.error ("No session found. Run with environment and dry-run: true first."), [])
  | some s => (Except.ok (gitTagOfFinalize s), [finalizeLedgerReq s])

/-! ## Release publisher (index.ts lines 114-178, part_003 lines 81-137)

createGithubRelease wraps release creation and sequential asset upload in
one try/catch whose handler only emits a warning.  The collaborator
outcomes of the try block are reified: release creation may throw, or the
k-th asset upload may throw (after the first k succeeded), or everything
succeeds.  Glob expansion of asset patterns is the external matcher; the
already-resolved file list is the argument here. -/

inductive ReleaseWorld
  | createFails (msg : String)
  | assetFails (k : Nat) (msg : String)
  | allOk
deriving Repr, DecidableEq

/-- Observable effects of the ledger-write plus release-publication tail
of a mode. -/
inductive Event
  | ledgerWrite (req : LedgerReq)
  | releaseCreated (tag : String)
  | assetUploaded (file : String)
  | warned (msg : String)
deriving Repr, DecidableEq

/-- The body of the try block: effects performed up to the point the
world says a step throws, and the thrown message if one did. -/
def createReleaseAttempt (w : ReleaseWorld) (tag : String)
    (files : List String) : List Event × Option String :=
  match w with
  | ReleaseWorld.createFails msg => ([], some msg)
  | ReleaseWorld.assetFails k msg =>
      if k < files.length then
        (Event.releaseCreated tag :: (files.take k).map Event.assetUploaded,
          some msg)
      else
        (Event.releaseCreated tag :: files.map Event.assetUploaded, none)
  | ReleaseWorld.allOk =>
      (Event.releaseCreated tag :: files.map Event.assetUploaded, none)

/-- createGithubRelease: the try/catch around the attempt; a thrown error
is converted into a warning log entry and the function returns normally
either way (index.ts lines 173-177, part_003 lines 132-136). -/
def createGithubRelease (w : ReleaseWorld) (tag : String)
    (files : List String) : List Event :=
  match createReleaseAttempt w tag files with
  | (evs, some m) =>
      evs ++ [Event.warned ("Failed to create GitHub release: " ++ m)]
  | (evs, none) => evs

/-- Finalize mode after a session was found (index.ts lines 273-301): the
ledger write, then, when the session does not skip it and a github token
is present, the best-effort release step. -/
def finalizeReleaseTail (req : LedgerReq) (skipGh : Bool)
    (githubToken tag : String) (w : ReleaseWorld)
    (files : List String) : Except String (List Event) :=
  Except.ok (Event.ledgerWrite req ::
    (if skipGh = false ∧ githubToken ≠ "" then
      createGithubRelease w tag files
    else []))

/-- Explicit mode after the version dry-run resolved the application name
(index.ts lines 440-472): ledger write, then the guarded release step. -/
def explicitReleaseTail (req : LedgerReq) (skipGh : Bool)
    (githubToken tag : String) (w : ReleaseWorld)
    (files : List String) : Except String (List Event) :=
  Except.ok (Event.ledgerWrite req ::
    (if skipGh = false ∧ githubToken ≠ "" then
      createGithubRelease w tag files
    else []))

/-- SingleJob cleanup phase (part_003 lines 202-246): ledger write, then
the guarded release step. -/
def singleJobReleaseTail (req : LedgerReq) (skipGh : Bool)
    (githubToken tag : String) (w : ReleaseWorld)
    (files : List String) : Except String (List Event) :=
  Except.ok (Event.ledgerWrite req ::
    (if skipGh = false ∧ githubToken ≠ "" then
      createGithubRelease w tag files
    else []))

/-! ## Commit-message truncation (index.ts lines 396, 444, 514)

The source computes commitMessage.split of the newline character, then
takes element zero: the text before the first newline. -/

/-- JavaScript String.split on a single character, over the char list. -/
def splitOnChar (c : Char) : List Char → List (List Char)
  | [] => [[]]
  | x :: xs =>
      if x = c then [] :: splitOnChar c xs
      else
        match splitOnChar c xs with
        | [] => [[x]]
        | y :: ys => (x :: y) :: ys

/-- Element zero of the split: the first line of the message. -/
def firstLine (s : String) : String :=
  String.mk ((splitOnChar '\n' s.data).headD [])

/-- Init mode session construction (index.ts lines 385-398).  The source
field releasePrefix is releasePref here; line 390 turns an empty
release-prefix input into undefined, line 392 does the same for the
release body, and line 396 truncates the commit message to its first
line. -/
def sessionDataOf (environment resultVersion applicationName apiUrl
    releasePrefInput : String) (skipGithubRelease : Bool)
    (releaseBody : String) (draft prerelease : Bool)
    (commitHash commitMessage deployedBy : String) : SessionData :=
  { environment := environment, version := resultVersion,
    applicationName := applicationName, apiUrl := apiUrl,
    releasePref := if releasePrefInput = "" then none else some releasePrefInput,
    skipGithubRelease := skipGithubRelease,
    body := if releaseBody = "" then none else some releaseBody,
    draft := draft, prerelease := prerelease,
    commitHash := some commitHash,
    commitMessage := some (firstLine commitMessage),
    deployedBy := some deployedBy }

/-- Explicit-mode ledger payload (index.ts lines 440-447); line 444
truncates the commit message. -/
def explicitRecordBody (environment version commitHash commitMessage
    deployedBy gitTag : String) : LedgerReq :=
  { environment := environment, version := version,
    commitHash := some commitHash,
    commitMessage := some (firstLine commitMessage),
    deployedBy := some deployedBy, gitTag := gitTag }

/-- SingleJob-mode saved state for the cleanup phase (index.ts lines
507-522); line 514 truncates the commit message. -/
def singleJobSavedState (token apiUrl environment resultVersion
    applicationName commitHash commitMessage deployedBy : String)
    (skipGithubRelease : Bool) (releasePrefInput githubToken
    releaseBody : String) (draft prerelease : Bool)
    (artifacts : String) : List (String × String) :=
  [("skip", "false"),
   ("token", token),
   ("apiUrl", apiUrl),
   ("environment", environment),
   ("version", resultVersion),
   ("applicationName", applicationName),
   ("commitHash", commitHash),
   ("commitMessage", firstLine commitMessage),
   ("deployedBy", deployedBy),
   ("skipGithubRelease", toString skipGithubRelease),
   ("releasePrefix", releasePrefInput),
   ("githubToken", githubToken),
   ("body", releaseBody),
   ("draft", toString draft),
   ("prerelease", toString prerelease),
   ("artifacts", artifacts)]

/-! ## SecretCodec (src/src/crypto.ts)

Bytes are lists of naturals (each conceptually below 256; the proofs use
only xor, which preserves that range).  Base64 transport and UTF-8
transcoding are the external boundary; the fields of EncryptedData are
the decoded byte strings.  Node's AES-256-GCM decipher is CTR decryption
plus an authentication-tag check: update returns the CTR-decrypted bytes
and final throws when the supplied tag differs from the tag recomputed
over the ciphertext, so the function only ever returns authenticated
bytes.  The primitive is modelled by its two ingredients: the CTR
keystream and the tag function, both abstract parameters. -/

abbrev Bytes := List Nat

structure GcmModel where
  keystream : Bytes → Bytes → Nat → Bytes
  tagOf : Bytes → Bytes → Bytes → Bytes

/-- CTR-mode en/decryption: xor the data with the keystream drawn for the
key and iv at the data's length (its own inverse). -/
def ctrCrypt (m : GcmModel) (key iv xs : Bytes) : Bytes :=
  (xs.zip (m.keystream key iv xs.length)).map fun p => p.1 ^^^ p.2

/-- The parsed encrypted triple (crypto.ts lines 3-7), fields already
base64-decoded. -/
structure EncryptedData where
  iv : Bytes
  encryptedKey : Bytes
  encryptedValue : Bytes
deriving Repr, DecidableEq

/-- decryptSecret (crypto.ts lines 13-56): unwrap the AES key with
RSA-OAEP (the abstract unwrap; privateDecrypt throws on failure, modelled
by the propagated error), split the decoded value into ciphertext and the
final 16-byte tag exactly as subarray with negative indices does, then
GCM-decrypt: the result is returned only when the tag authenticates,
otherwise final throws. -/
def decryptSecret (m : GcmModel) (unwrap : Bytes → Except String Bytes)
    (e : EncryptedData) : Except String Bytes :=
  match unwrap e.encryptedKey with
  | Except.error msg => Except.error msg
  | Except.ok aesKey =>
      let authTag := e.encryptedValue.drop (e.encryptedValue.length - 16)
      let ciphertext := e.encryptedValue.take (e.encryptedValue.length - 16)
      if authTag = m.tagOf aesKey e.iv ciphertext then
        Except.ok (ctrCrypt m aesKey e.iv ciphertext)
      else
        Except.error ("Unsupported state or unable to authenticate data")

/-- Modelled from the spec: the encryption side of SecretCodec is not in
src (it belongs to the service storing the secrets); spec sections 3 and
4.6 describe it as AES-256-GCM of the plaintext under a content key and
iv with the 16-byte authentication tag appended to the ciphertext, and
the content key wrapped under the recipient's RSA-OAEP/SHA-256 public
key. -/
def encryptSecret (m : GcmModel) (wrap : Bytes → Bytes)
    (key iv pt : Bytes) : EncryptedData :=
  { iv := iv, encryptedKey := wrap key,
    encryptedValue :=
      ctrCrypt m key iv pt ++ m.tagOf key iv (ctrCrypt m key iv pt) }

/-- Flip bit j of a byte string (bit j mod 8 of byte j / 8). -/
def flipBit (j : Nat) (bs : Bytes) : Bytes :=
  bs.set (j / 8) (bs.getD (j / 8) 0 ^^^ (1 <<< (j % 8)))

/-- One concrete instantiation of the abstract GCM primitive, used to
evaluate the crypto theorems at concrete inputs: the keystream is all
zeroes and the tag is sixteen copies of the first ciphertext byte (enough
for a single-bit flip of a one-byte ciphertext to change the tag). -/
def gcmModelWit : GcmModel :=
  { keystream := fun _ _ n => List.replicate n 0,
    tagOf := fun _ _ c => List.replicate 16 (c.headD 0) }

/-! ## Theorems -/

/-- C1: the code's mode resolution agrees with the spec's decision table,
for every presence/absence combination of the six inputs, whenever the
provided environment and bump values are themselves valid (value validity
is a separate check the claim's presence-level table does not enumerate).
-/
theorem resolveMode_follows_spec_table (i : Inputs)
    (henv : i.environment = "" ∨ i.environment ∈ validEnvs)
    (hbump : effBump i ∈ validBumps) :
    resolveMode i =
      specModeTable (i.token ≠ "") (i.environment ≠ "") (i.version ≠ "")
        i.dryRun i.getVersion (i.artifacts ≠ "") := by
  unfold resolveMode specModeTable
  by_cases htok : i.token = "" <;>
    by_cases hart : i.artifacts = "" <;>
      by_cases henv2 : i.environment = "" <;>
        by_cases hver : i.version = "" <;>
          cases hdry : i.dryRun <;>
            cases hget : i.getVersion <;>
              simp_all [decide_eq_true_eq]

/-- Witness for C1 at a concrete input: token and environment provided,
get-version set, artifacts absent resolves to QueryVersion. -/
theorem resolveMode_follows_spec_table_witness :
    ((⟨"t", "production", "", "", false, true, ""⟩ : Inputs).environment = "" ∨
      (⟨"t", "production", "", "", false, true, ""⟩ : Inputs).environment ∈ validEnvs) ∧
    effBump ⟨"t", "production", "", "", false, true, ""⟩ ∈ validBumps ∧
    resolveMode ⟨"t", "production", "", "", false, true, ""⟩ =
      specModeTable true true false false true false := by
  refine ⟨Or.inr (by decide), by decide, ?_⟩
  have h := resolveMode_follows_spec_table ⟨"t", "production", "", "", false, true, ""⟩
    (Or.inr (by decide)) (by decide)
  simpa using h

/-- Encode-then-decode is the identity on sessions. -/
theorem decodeSession_encodeSession (s : SessionData) :
    decodeSession (encodeSession s) = some s := by
  obtain ⟨env, ver, app, api, rp, sgr, bd, dr, pr, ch, cm, db⟩ := s
  cases rp <;> cases bd <;> cases ch <;> cases cm <;> cases db <;> rfl

/-- C4: publishing a session and then resuming it yields the same session,
field for field, whatever else the store already held. -/
theorem session_publish_resume_roundtrip (st : List (String × JObj))
    (s : SessionData) :
    resumeSession (publishSession s st) = some s := by
  have hfind :
      (publishSession s st).find? (fun b => b.1 == SESSION_ARTIFACT_NAME) =
        some (SESSION_ARTIFACT_NAME, encodeSession s) := by
    simp [publishSession, List.find?]
  simp [resumeSession, sessionFetchOf, hfind, downloadSession,
    decodeSession_encodeSession]

/-- C3: the tag is the one pure rule of (prefix-or-applicationName,
version) at all three call sites: the Explicit-mode site and the
SingleJob-cleanup site compute identical strings, and the Finalize-mode
site computed over session fields agrees with them on the corresponding
inputs. -/
theorem gitTag_agrees_across_call_sites (rp an v : String) (s : SessionData) :
    gitTagOfExplicit rp an v = gitTagOfSingleJobPost rp an v ∧
    gitTagOfExplicit rp an v = tagRule (if rp = "" then an else rp) v ∧
    gitTagOfFinalize s =
      gitTagOfExplicit (Option.getD s.releasePref ("")) s.applicationName
        s.version := by
  refine ⟨rfl, rfl, ?_⟩
  cases h : s.releasePref with
  | none => simp [gitTagOfFinalize, gitTagOfExplicit, h]
  | some p =>
      by_cases hp : p = "" <;>
        simp [gitTagOfFinalize, gitTagOfExplicit, h, hp]

/-- C5: every retrieval miss (no bundle listed, download yielded no path,
session.json absent from the bundle, any caught exception, undecodable
content) makes downloadSession return absence instead of raising, and in
Finalize mode that absence becomes the fatal run-Init-first error, with
zero ledger writes attempted. -/
theorem session_miss_nonfatal_but_finalize_fatal (f : SessionFetch)
    (hm : (downloadSession f).1 = none) :
    (finalizeRun f).1 =
      Except.error ("No session found. Run with environment and dry-run: true first.") ∧
    (finalizeRun f).2 = [] ∧
    (downloadSession SessionFetch.noBundle).1 = none ∧
    (downloadSession SessionFetch.downloadFailed).1 = none ∧
    (downloadSession SessionFetch.fileMissing).1 = none ∧
    (∀ m, (downloadSession (SessionFetch.caughtError m)).1 = none) := by
  refine ⟨?_, ?_, rfl, rfl, rfl, fun m => rfl⟩ <;>
    simp [finalizeRun, hm]

/-- Witness for C5: the no-bundle miss. -/
theorem session_miss_nonfatal_but_finalize_fatal_witness :
    (downloadSession SessionFetch.noBundle).1 = none ∧
    (finalizeRun SessionFetch.noBundle).1 =
      Except.error ("No session found. Run with environment and dry-run: true first.") := by
  exact ⟨rfl, (session_miss_nonfatal_but_finalize_fatal SessionFetch.noBundle rfl).1⟩

/-! ## Helper lemmas -/

/-- A generated artifact bundle name is never the fixed name the
finalize-side download searches for: the stem alone is already longer
than the fixed name. -/
theorem generateArtifactName_ne_fixed (u : String) :
    generateArtifactName u ≠ ARTIFACTS_ARTIFACT_NAME := by
  intro heq
  have hlen := congrArg String.length heq
  rw [generateArtifactName, String.length_append] at hlen
  have h1 : artifactNameStem.length = 25 := rfl
  have h2 : ARTIFACTS_ARTIFACT_NAME.length = 24 := rfl
  omega

/-- Distinct suffixes give distinct generated names. -/
theorem generateArtifactName_inj (u v : String)
    (h : generateArtifactName u = generateArtifactName v) : u = v := by
  unfold generateArtifactName at h
  have hd := congrArg String.data h
  rw [String.data_append, String.data_append] at hd
  exact String.ext (List.append_cancel_left hd)

/-- C2 (the code misses uploaded bundles): whenever every bundle in
storage was uploaded under a generated name (the fixed stem plus a unique
suffix, as the publish step names every bundle it uploads), the
finalize-side collection returns the empty list, omitting every uploaded
file: it searches for an artifact whose name equals the fixed
suffix-free string exactly, which no generated name can match. -/
theorem downloadStoredArtifacts_misses_generated_bundles (st : BlobStore)
    (h : ∀ b ∈ st, ∃ u, b.name = generateArtifactName u) :
    downloadStoredArtifacts st = [] := by
  have hfind : st.find? (fun b => b.name == ARTIFACTS_ARTIFACT_NAME) = none := by
    rw [List.find?_eq_none]
    intro b hb
    obtain ⟨u, hu⟩ := h b hb
    simp only [hu, Bool.not_eq_true, beq_eq_false_iff_ne, ne_eq]
    exact generateArtifactName_ne_fixed u
  simp [downloadStoredArtifacts, hfind]

/-- Witness for C2: one bundle uploaded by the publish step under a
generated name, holding one file; the collection step returns nothing. -/
theorem downloadStoredArtifacts_misses_generated_bundles_witness :
    downloadStoredArtifacts
      [{ name := generateArtifactName ("7f9c"), files := ["dist/app.zip"] }] = [] := by
  apply downloadStoredArtifacts_misses_generated_bundles
  intro b hb
  simp only [List.mem_singleton] at hb
  subst hb
  exact ⟨"7f9c", rfl⟩

/-- C8: the naming scheme is collision-free and uploads never overwrite
one another: distinct suffixes give distinct bundle names, any list of
pairwise-distinct suffixes gives pairwise-distinct names, and after two
publish calls with distinct suffixes both bundles are present in storage
with their own files. -/
theorem artifact_publish_collision_free (u v : String)
    (uuids : List String) (f1 f2 : List String) (st : BlobStore)
    (huv : u ≠ v) (hdist : uuids.Pairwise (fun a b => a ≠ b))
    (hf1 : f1 ≠ []) (hf2 : f2 ≠ []) :
    generateArtifactName u ≠ generateArtifactName v ∧
    (uuids.map generateArtifactName).Pairwise (fun a b => a ≠ b) ∧
    ({ name := generateArtifactName u, files := f1 } : StoredBundle) ∈
      uploadArtifactsToStorage v f2 (uploadArtifactsToStorage u f1 st) ∧
    ({ name := generateArtifactName v, files := f2 } : StoredBundle) ∈
      uploadArtifactsToStorage v f2 (uploadArtifactsToStorage u f1 st) := by
  refine ⟨?_, ?_, ?_, ?_⟩
  · intro heq
    exact huv (generateArtifactName_inj u v heq)
  · exact hdist.map generateArtifactName
      (fun a b hab heq => hab (generateArtifactName_inj a b heq))
  · simp [uploadArtifactsToStorage, hf1, hf2]
  · simp [uploadArtifactsToStorage, hf1, hf2]

/-- Witness for C8 at two concrete publish calls with distinct suffixes. -/
theorem artifact_publish_collision_free_witness :
    generateArtifactName ("aaa") ≠ generateArtifactName ("bbb") ∧
    ((["aaa", "bbb", "ccc"].map generateArtifactName).Pairwise
      (fun a b => a ≠ b)) ∧
    ({ name := generateArtifactName ("aaa"), files := ["x.zip"] } : StoredBundle) ∈
      uploadArtifactsToStorage ("bbb") ["y.zip"]
        (uploadArtifactsToStorage ("aaa") ["x.zip"] []) ∧
    ({ name := generateArtifactName ("bbb"), files := ["y.zip"] } : StoredBundle) ∈
      uploadArtifactsToStorage ("bbb") ["y.zip"]
        (uploadArtifactsToStorage ("aaa") ["x.zip"] []) := by
  exact artifact_publish_collision_free ("aaa") ("bbb") ["aaa", "bbb", "ccc"]
    ["x.zip"] ["y.zip"] [] (by decide) (by decide) (by decide) (by decide)

/-- C9: release-creation and asset-upload failures are caught and only
warned, every mode tail that publishes a release still succeeds for every
failure world, and the ledger write stays first in its effect trace, so
it is never rolled back; assets uploaded before a partial failure stay
uploaded. -/
theorem release_errors_nonfatal (req : LedgerReq) (skipGh : Bool)
    (githubToken tag : String) (w : ReleaseWorld) (files : List String) :
    (∃ evs, finalizeReleaseTail req skipGh githubToken tag w files =
        Except.ok evs ∧ evs.head? = some (Event.ledgerWrite req)) ∧
    (∃ evs, explicitReleaseTail req skipGh githubToken tag w files =
        Except.ok evs ∧ evs.head? = some (Event.ledgerWrite req)) ∧
    (∃ evs, singleJobReleaseTail req skipGh githubToken tag w files =
        Except.ok evs ∧ evs.head? = some (Event.ledgerWrite req)) ∧
    (∀ msg, createGithubRelease (ReleaseWorld.createFails msg) tag files =
        [Event.warned ("Failed to create GitHub release: " ++ msg)]) ∧
    (∀ k msg, k < files.length →
        createGithubRelease (ReleaseWorld.assetFails k msg) tag files =
          Event.releaseCreated tag ::
            ((files.take k).map Event.assetUploaded ++
              [Event.warned ("Failed to create GitHub release: " ++ msg)])) ∧
    createGithubRelease ReleaseWorld.allOk tag files =
      Event.releaseCreated tag :: files.map Event.assetUploaded := by
  refine ⟨⟨_, rfl, rfl⟩, ⟨_, rfl, rfl⟩, ⟨_, rfl, rfl⟩, fun msg => rfl, ?_, rfl⟩
  intro k msg hk
  simp [createGithubRelease, createReleaseAttempt, hk]

/-- Witness for C9: a run whose second asset upload fails keeps the
ledger write, the release, the first asset, and only warns. -/
theorem release_errors_nonfatal_witness :
    (1 : Nat) < (["a.zip", "b.zip"] : List String).length ∧
    createGithubRelease (ReleaseWorld.assetFails 1 ("boom")) ("app-v1.0.0")
        ["a.zip", "b.zip"] =
      Event.releaseCreated ("app-v1.0.0") ::
        (((["a.zip", "b.zip"] : List String).take 1).map Event.assetUploaded ++
          [Event.warned ("Failed to create GitHub release: " ++ "boom")]) := by
  constructor
  · decide
  · exact (release_errors_nonfatal
      { environment := "production", version := "1.0.0", commitHash := none,
        commitMessage := none, deployedBy := none, gitTag := "app-v1.0.0" }
      false ("g") ("app-v1.0.0") (ReleaseWorld.assetFails 1 ("boom"))
      ["a.zip", "b.zip"]).2.2.2.2.1 1 ("boom") (by decide)

/-- splitOnChar never returns the empty list of pieces. -/
theorem splitOnChar_ne_nil (c : Char) (xs : List Char) :
    splitOnChar c xs ≠ [] := by
  cases xs with
  | nil => simp [splitOnChar]
  | cons x xs =>
      by_cases hx : x = c
      · simp [splitOnChar, hx]
      · cases hsp : splitOnChar c xs with
        | nil => simp [splitOnChar, hx, hsp]
        | cons y ys => simp [splitOnChar, hx, hsp]

/-- The first piece of the split is the text before the first separator. -/
theorem splitOnChar_headD (c : Char) (xs : List Char) :
    (splitOnChar c xs).headD [] = xs.takeWhile (fun a => a != c) := by
  induction xs with
  | nil => rfl
  | cons x xs ih =>
      by_cases hx : x = c
      · simp [splitOnChar, hx, List.takeWhile_cons]
      · cases hsp : splitOnChar c xs with
        | nil => exact absurd hsp (splitOnChar_ne_nil c xs)
        | cons y ys =>
            rw [hsp] at ih
            simp only [List.headD_cons] at ih
            simp [splitOnChar, hx, hsp, List.takeWhile_cons, ih]

/-- C10: in all three places a commit message is put into a payload or
saved for a later phase — the Init-mode session, the Explicit-mode ledger
payload, and the SingleJob saved state — the stored value is the first
line of the input: the text before the first newline, with everything
from the first newline onward discarded. -/
theorem commit_message_truncated_to_first_line (environment resultVersion
    applicationName apiUrl releasePrefInput : String)
    (skipGithubRelease : Bool) (releaseBody : String)
    (draft prerelease : Bool)
    (commitHash msg deployedBy token githubToken artifacts
    version gitTag : String) :
    (sessionDataOf environment resultVersion applicationName apiUrl
        releasePrefInput skipGithubRelease releaseBody draft prerelease
        commitHash msg deployedBy).commitMessage = some (firstLine msg) ∧
    (explicitRecordBody environment version commitHash msg deployedBy
        gitTag).commitMessage = some (firstLine msg) ∧
    List.lookup ("commitMessage")
        (singleJobSavedState token apiUrl environment resultVersion
          applicationName commitHash msg deployedBy skipGithubRelease
          releasePrefInput githubToken releaseBody draft prerelease
          artifacts) = some (firstLine msg) ∧
    (firstLine msg).data = msg.data.takeWhile (fun a => a != '\n') := by
  refine ⟨rfl, rfl, ?_, ?_⟩
  · simp [singleJobSavedState, List.lookup]
  · show (splitOnChar '\n' msg.data).headD [] =
      msg.data.takeWhile (fun a => a != '\n')
    exact splitOnChar_headD '\n' msg.data

/-- Xoring with the same stream twice is the identity, elementwise over a
zip with a stream at least as long as the data. -/
theorem xor_zip_involutive : ∀ (xs ks : List Nat), xs.length ≤ ks.length →
    (((xs.zip ks).map fun p => p.1 ^^^ p.2).zip ks).map
      (fun p => p.1 ^^^ p.2) = xs := by
  intro xs
  induction xs with
  | nil => intro ks h; simp
  | cons x xs ih =>
      intro ks h
      cases ks with
      | nil => simp at h
      | cons k ks =>
          simp only [List.zip_cons_cons, List.map_cons, Nat.xor_cancel_right]
          exact congrArg (List.cons x) (ih ks (by simpa using h))

/-- CTR decryption undoes CTR encryption when the keystream supplies as
many bytes as requested. -/
theorem ctrCrypt_ctrCrypt (m : GcmModel) (key iv pt : Bytes)
    (hks : ∀ n, (m.keystream key iv n).length = n) :
    ctrCrypt m key iv (ctrCrypt m key iv pt) = pt := by
  have hlen : (ctrCrypt m key iv pt).length = pt.length := by
    simp [ctrCrypt, hks pt.length]
  conv_lhs => rw [ctrCrypt, hlen]
  rw [ctrCrypt]
  exact xor_zip_involutive pt (m.keystream key iv pt.length)
    (by rw [hks pt.length])

/-- Splitting a ciphertext-plus-16-byte-tag concatenation at length minus
16 recovers the two parts. -/
theorem split_append_16 (a b : List Nat) (hb : b.length = 16) :
    (a ++ b).drop ((a ++ b).length - 16) = b ∧
    (a ++ b).take ((a ++ b).length - 16) = a := by
  have hlen : (a ++ b).length - 16 = a.length := by
    simp [List.length_append, hb]
  rw [hlen]
  constructor
  · simp
  · simp

/-- Flipping a bit does not change the length. -/
theorem flipBit_length (j : Nat) (bs : Bytes) :
    (flipBit j bs).length = bs.length := by
  simp [flipBit]

/-- Flipping a bit inside the string changes it. -/
theorem flipBit_ne (j : Nat) (bs : Bytes) (h : j / 8 < bs.length) :
    flipBit j bs ≠ bs := by
  intro heq
  have hset : j / 8 < (bs.set (j / 8)
      (bs.getD (j / 8) 0 ^^^ (1 <<< (j % 8)))).length := by
    simpa using h
  have e1 : (flipBit j bs).getD (j / 8) 0 =
      bs.getD (j / 8) 0 ^^^ (1 <<< (j % 8)) := by
    rw [flipBit, List.getD_eq_getElem?_getD, List.getElem?_set_self h]
    rfl
  rw [heq] at e1
  have hz : (1 <<< (j % 8)) = 0 := by
    have h2 := Nat.xor_cancel_left (bs.getD (j / 8) 0) (1 <<< (j % 8))
    rw [← e1, Nat.xor_self] at h2
    exact h2.symm
  have hpos : 0 < 1 <<< (j % 8) := by
    rw [Nat.one_shiftLeft]
    exact Nat.two_pow_pos (j % 8)
  omega

/-- C6: decryptSecret returns plaintext only when the final 16-byte tag
authenticates the ciphertext, and it fails with the authentication error
(never returning bytes) on any input whose tag does not authenticate — in
particular on a valid encryption with any one bit of the tag flipped, and
on a valid encryption with any one bit of the ciphertext flipped, the
latter under GCM's tag sensitivity to ciphertext bit flips. -/
theorem decryptSecret_requires_authentication (m : GcmModel)
    (unwrap : Bytes → Except String Bytes) (aesKey ek iv ct : Bytes)
    (i j : Nat)
    (hkey : unwrap ek = Except.ok aesKey)
    (htlen : (m.tagOf aesKey iv ct).length = 16)
    (hj : j < 128)
    (hsens : m.tagOf aesKey iv (flipBit i ct) ≠ m.tagOf aesKey iv ct) :
    (∀ ev pt, decryptSecret m unwrap
        { iv := iv, encryptedKey := ek, encryptedValue := ev } =
          Except.ok pt →
      ev.drop (ev.length - 16) =
        m.tagOf aesKey iv (ev.take (ev.length - 16)) ∧
      pt = ctrCrypt m aesKey iv (ev.take (ev.length - 16))) ∧
    decryptSecret m unwrap
        { iv := iv, encryptedKey := ek,
          encryptedValue := ct ++ flipBit j (m.tagOf aesKey iv ct) } =
      Except.error ("Unsupported state or unable to authenticate data") ∧
    decryptSecret m unwrap
        { iv := iv, encryptedKey := ek,
          encryptedValue := flipBit i ct ++ m.tagOf aesKey iv ct } =
      Except.error ("Unsupported state or unable to authenticate data") := by
  refine ⟨?_, ?_, ?_⟩
  · intro ev pt h
    rw [decryptSecret, hkey] at h
    dsimp only at h
    by_cases hc : ev.drop (ev.length - 16) =
        m.tagOf aesKey iv (ev.take (ev.length - 16))
    · rw [if_pos hc] at h
      exact ⟨hc, (Except.ok.inj h).symm⟩
    · rw [if_neg hc] at h
      exact absurd h (by simp)
  · have hftlen : (flipBit j (m.tagOf aesKey iv ct)).length = 16 := by
      rw [flipBit_length, htlen]
    have hsp := split_append_16 ct (flipBit j (m.tagOf aesKey iv ct)) hftlen
    rw [decryptSecret, hkey]
    dsimp only
    rw [hsp.1, hsp.2, if_neg]
    exact flipBit_ne j (m.tagOf aesKey iv ct) (by omega)
  · have hsp := split_append_16 (flipBit i ct) (m.tagOf aesKey iv ct) htlen
    rw [decryptSecret, hkey]
    dsimp only
    rw [hsp.1, hsp.2, if_neg]
    exact fun hcontra => hsens hcontra.symm

/-- Witness for C6 at a concrete model, key, and one-byte ciphertext:
flipping tag bit 0 or ciphertext bit 1 makes decryption fail. -/
theorem decryptSecret_requires_authentication_witness :
    decryptSecret gcmModelWit (fun _ => Except.ok [1])
        { iv := [3], encryptedKey := [2],
          encryptedValue := [5] ++ flipBit 0 (gcmModelWit.tagOf [1] [3] [5]) } =
      Except.error ("Unsupported state or unable to authenticate data") ∧
    decryptSecret gcmModelWit (fun _ => Except.ok [1])
        { iv := [3], encryptedKey := [2],
          encryptedValue := flipBit 1 [5] ++ gcmModelWit.tagOf [1] [3] [5] } =
      Except.error ("Unsupported state or unable to authenticate data") := by
  have h := decryptSecret_requires_authentication gcmModelWit
    (fun _ => Except.ok [1]) [1] [2] [3] [5] 1 0 rfl (by decide)
    (by decide) (by decide)
  exact ⟨h.2.1, h.2.2⟩

/-- C7: encrypting any byte string (the UTF-8 bytes of an arbitrary
string, including empty and NUL-containing ones) under the hybrid scheme
and decrypting with the matching private key recovers exactly the
original bytes, whenever the key pair matches, the keystream honours the
requested length, and the tag is 16 bytes. -/
theorem secret_encrypt_decrypt_roundtrip (m : GcmModel)
    (wrap : Bytes → Bytes) (unwrap : Bytes → Except String Bytes)
    (key iv pt : Bytes)
    (hrsa : unwrap (wrap key) = Except.ok key)
    (hks : ∀ n, (m.keystream key iv n).length = n)
    (htag : (m.tagOf key iv (ctrCrypt m key iv pt)).length = 16) :
    decryptSecret m unwrap (encryptSecret m wrap key iv pt) =
      Except.ok pt := by
  have hsp := split_append_16 (ctrCrypt m key iv pt)
    (m.tagOf key iv (ctrCrypt m key iv pt)) htag
  simp only [encryptSecret, decryptSecret, hrsa]
  rw [hsp.1, hsp.2, if_pos rfl, ctrCrypt_ctrCrypt m key iv pt hks]

/-- Witness for C7: the two-byte plaintext holding a NUL byte round-trips
under the concrete model. -/
theorem secret_encrypt_decrypt_roundtrip_witness :
    decryptSecret gcmModelWit (fun b => Except.ok b)
      (encryptSecret gcmModelWit (fun b => b) [1] [3] [0, 65]) =
      Except.ok [0, 65] := by
  exact secret_encrypt_decrypt_roundtrip gcmModelWit (fun b => b)
    (fun b => Except.ok b) [1] [3] [0, 65] rfl
    (fun n => by simp [gcmModelWit]) (by decide)
